import Mathlib

/-!
Verification of the per-instruction semantic record of the Triton fork
(`src/libtriton/includes/triton/instruction.hpp`).

Only the header is present in the sources, so the data model below follows the
field declarations of the header exactly (field names, collection shapes,
flags), while the bodies of the member functions are modelled from the spec
(`spec.md`) and, where the header's own doc comments describe behaviour, from
those comments.  Every definition carries a doc comment stating what it embeds.

Machine integers are modelled as `Nat`; 64-bit wrap-around is written
explicitly as `% 2 ^ 64` where it matters.  Non-owning pointers to AST nodes
and symbolic expressions are modelled as value handles.
-/

namespace Triton

/-- Modelled from the spec: `triton::arch::MemoryAccess` is external to the
header (only included); per spec section 3 it is a memory-range descriptor
ordered by address and size, so it is embedded as an (address, size) pair. -/
structure MemoryAccess where
  address : Nat
  size : Nat
deriving DecidableEq

/-- Modelled from the spec: `triton::arch::Register` is external to the
header; per spec section 3 it is a register descriptor identified and ordered
by a numeric id. -/
structure Register where
  rid : Nat
deriving DecidableEq

/-- Modelled from the spec: `triton::arch::Immediate` is external to the
header; per spec section 3 it is an immediate-value descriptor ordered by its
value. -/
structure Immediate where
  value : Nat
deriving DecidableEq

/-- Modelled from the spec: a non-owning `triton::ast::AbstractNode*`
reference, embedded as a numeric handle owned by the external AST engine. -/
abbrev NodeRef := Nat

/-- Modelled from the spec: a `triton::engines::symbolic::SymbolicExpression`
object as seen by this record: an identity plus the per-expression taint flag
that the external Taint Engine sets (spec section 4.3). -/
structure SymbolicExpression where
  sid : Nat
  isTainted : Bool
deriving DecidableEq

/-- Modelled from the spec: `triton::arch::OperandWrapper` is external to the
header; it wraps one of the three descriptor kinds (spec section 6). -/
inductive OperandWrapper where
  | mem (m : MemoryAccess)
  | reg (r : Register)
  | imm (v : Immediate)
deriving DecidableEq

/-- An access collection of the header
(`std::set<std::pair<Descriptor, triton::ast::AbstractNode*>>`), embedded as a
list of (descriptor, node-handle) pairs. -/
abbrev AccessSet (D : Type) := List (D × NodeRef)

namespace Access

variable {D : Type} [DecidableEq D]

/-- Entry key test: does entry `p` carry descriptor `d`? -/
def keyMatch (d : D) (p : D × NodeRef) : Bool :=
  decide (p.1 = d)

/-- Descriptor membership in an access collection. -/
def containsKey (s : AccessSet D) (d : D) : Bool :=
  s.any (keyMatch d)

/-- Replacement step of the upsert: an entry carrying descriptor `d` is
rewritten to carry node `e`; other entries are untouched. -/
def updEntry (d : D) (e : NodeRef) (p : D × NodeRef) : D × NodeRef :=
  if p.1 = d then (d, e) else p

/-- Modelled from the spec: the bodies of `Instruction::setLoadAccess`,
`setStoreAccess`, `setReadRegister`, `setWrittenRegister` and
`setReadImmediate` are not in the header; spec section 4.2 defines the shared
contract as an upsert: if the descriptor is already present its expression
reference is replaced, otherwise a new entry is inserted. -/
def set (s : AccessSet D) (d : D) (e : NodeRef) : AccessSet D :=
  if containsKey s d then
    s.map (updEntry d e)
  else
    s ++ [(d, e)]

/-- Modelled from the spec: the bodies of `Instruction::removeLoadAccess`,
`removeStoreAccess`, `removeReadRegister`, `removeWrittenRegister` and
`removeReadImmediate` are not in the header; spec section 4.2 defines the
shared contract: the entry for the descriptor is removed if present, and the
call is a no-op if it is absent. -/
def remove (s : AccessSet D) (d : D) : AccessSet D :=
  s.filter (fun p => !(keyMatch d p))

/-- Lookup of the expression reference associated with a descriptor. -/
def lookup (s : AccessSet D) (d : D) : Option NodeRef :=
  Option.map Prod.snd (s.find? (keyMatch d))

/-- Number of entries carrying descriptor `d`. -/
def keyCount (s : AccessSet D) (d : D) : Nat :=
  s.countP (keyMatch d)

/-- The deduplication invariant of spec section 3: at most one entry per
distinct descriptor value. -/
def KeyUnique (s : AccessSet D) : Prop :=
  ∀ d : D, keyCount s d ≤ 1

/-- The two mutating operations an external semantics pass may apply to one
access collection (spec section 4.2). -/
inductive Op (D : Type) where
  | upsert (d : D) (e : NodeRef)
  | erase (d : D)

/-- Interpretation of one access-collection operation. -/
def applyOp (s : AccessSet D) : Op D → AccessSet D
  | .upsert d e => Access.set s d e
  | .erase d => Access.remove s d

/-- A collection reached from the empty collection (a freshly constructed
record) by a sequence of set/remove operations. -/
def runOps (ops : List (Op D)) : AccessSet D :=
  ops.foldl applyOp []

end Access

/-- The instruction record declared at `instruction.hpp` lines 46-105.  Field
for field: thread id `tid`, `address` (64-bit, kept below `2 ^ 64`),
`disassembly` text, the raw `opcode` bytes (the logical `size` first bytes of
the 32-byte buffer), `size`, `type`, the prefix classifier (named `pfx` here),
the five access collections, the `branch` / `controlFlow` / `conditionTaken` /
`tainted` flags, the `operands` list and the `symbolicExpressions` list. -/
structure Instruction where
  tid : Nat
  address : Nat
  disassembly : String
  opcode : List Nat
  size : Nat
  type : Nat
  pfx : Nat
  loadAccess : AccessSet MemoryAccess
  storeAccess : AccessSet MemoryAccess
  readRegisters : AccessSet Register
  writtenRegisters : AccessSet Register
  readImmediates : AccessSet Immediate
  branch : Bool
  controlFlow : Bool
  conditionTaken : Bool
  tainted : Bool
  operands : List OperandWrapper
  symbolicExpressions : List SymbolicExpression
deriving DecidableEq

/-- The only hard failure of the core (spec section 7): the raw byte payload
exceeds the 32-byte opcode buffer of `instruction.hpp` line 58. -/
inductive TritonError where
  | BufferOverflow
deriving DecidableEq

namespace Instruction

/-- Modelled from the spec: the body of the default constructor
(`Instruction::Instruction`, header line 108) is not in the header; per spec
section 3 a record is default-constructed empty, with every scalar field
zero/false/empty. -/
def init : Instruction :=
  { tid := 0, address := 0, disassembly := "", opcode := [], size := 0,
    type := 0, pfx := 0, loadAccess := [], storeAccess := [],
    readRegisters := [], writtenRegisters := [], readImmediates := [],
    branch := false, controlFlow := false, conditionTaken := false,
    tainted := false, operands := [], symbolicExpressions := [] }

/-- Modelled from the spec: the body of `Instruction::setOpcode` (header line
162) is not in the header; per spec sections 4.1 and 7 a payload longer than
the 32-byte buffer fails with `BufferOverflow` (the record is not touched) and
a payload of length at most 32 is copied into the buffer with its length
stored as the size.  The payload is passed as the list of its bytes, whose
length plays the role of the C++ `size` argument. -/
def setOpcode (i : Instruction) (bytes : List Nat) : Except TritonError Instruction :=
  if bytes.length > 32 then
    Except.error TritonError.BufferOverflow
  else
    Except.ok { i with opcode := bytes, size := bytes.length }

/-- Modelled from the spec: the body of `Instruction::getNextAddress` (header
line 129) is not in the header; per spec sections 3 and 8 it returns
`address + size` in 64-bit unsigned arithmetic. -/
def getNextAddress (i : Instruction) : Nat :=
  (i.address + i.size) % 2 ^ 64

/-- Modelled from the spec: `Instruction::setLoadAccess` (header line 168)
upserts into the load-access collection (spec section 4.2). -/
def setLoadAccess (i : Instruction) (mem : MemoryAccess) (node : NodeRef) : Instruction :=
  { i with loadAccess := Access.set i.loadAccess mem node }

/-- Modelled from the spec: `Instruction::removeLoadAccess` (header line 171)
removes the load-access entry for the descriptor, a no-op if absent. -/
def removeLoadAccess (i : Instruction) (mem : MemoryAccess) : Instruction :=
  { i with loadAccess := Access.remove i.loadAccess mem }

/-- Modelled from the spec: `Instruction::setStoreAccess` (header line 174)
upserts into the store-access collection (spec section 4.2). -/
def setStoreAccess (i : Instruction) (mem : MemoryAccess) (node : NodeRef) : Instruction :=
  { i with storeAccess := Access.set i.storeAccess mem node }

/-- Modelled from the spec: `Instruction::removeStoreAccess` (header line 177)
removes the store-access entry for the descriptor, a no-op if absent. -/
def removeStoreAccess (i : Instruction) (mem : MemoryAccess) : Instruction :=
  { i with storeAccess := Access.remove i.storeAccess mem }

/-- Modelled from the spec: `Instruction::setReadRegister` (header line 180)
upserts into the read-registers collection (spec section 4.2). -/
def setReadRegister (i : Instruction) (reg : Register) (node : NodeRef) : Instruction :=
  { i with readRegisters := Access.set i.readRegisters reg node }

/-- Modelled from the spec: `Instruction::removeReadRegister` (header line
183) removes the read-registers entry for the descriptor, a no-op if absent. -/
def removeReadRegister (i : Instruction) (reg : Register) : Instruction :=
  { i with readRegisters := Access.remove i.readRegisters reg }

/-- Modelled from the spec: `Instruction::setWrittenRegister` (header line
186) upserts into the written-registers collection (spec section 4.2). -/
def setWrittenRegister (i : Instruction) (reg : Register) (node : NodeRef) : Instruction :=
  { i with writtenRegisters := Access.set i.writtenRegisters reg node }

/-- Modelled from the spec: `Instruction::removeWrittenRegister` (header line
189) removes the written-registers entry for the descriptor, a no-op if
absent. -/
def removeWrittenRegister (i : Instruction) (reg : Register) : Instruction :=
  { i with writtenRegisters := Access.remove i.writtenRegisters reg }

/-- Modelled from the spec: `Instruction::setReadImmediate` (header line 192)
upserts into the read-immediates collection (spec section 4.2). -/
def setReadImmediate (i : Instruction) (imm : Immediate) (node : NodeRef) : Instruction :=
  { i with readImmediates := Access.set i.readImmediates imm node }

/-- Modelled from the spec: `Instruction::removeReadImmediate` (header line
195) removes the read-immediates entry for the descriptor, a no-op if
absent. -/
def removeReadImmediate (i : Instruction) (imm : Immediate) : Instruction :=
  { i with readImmediates := Access.remove i.readImmediates imm }

/-- Modelled from the spec: `Instruction::addSymbolicExpression` (header line
216) appends to the ordered expression list without deduplication (spec
section 4.1). -/
def addSymbolicExpression (i : Instruction) (expr : SymbolicExpression) : Instruction :=
  { i with symbolicExpressions := i.symbolicExpressions ++ [expr] }

/-- Modelled from the spec: the no-argument `Instruction::setTaint` overload
(header line 213) recomputes the aggregate taint flag as the logical OR of
each listed expression's own taint flag (spec section 4.3). -/
def setTaint (i : Instruction) : Instruction :=
  { i with tainted := i.symbolicExpressions.any (fun e => e.isTainted) }

/-- Modelled from the spec: `Instruction::isTainted` (header line 228) returns
the stored aggregate taint flag (spec section 4.3). -/
def isTainted (i : Instruction) : Bool :=
  i.tainted

/-- Modelled from the spec: `Instruction::isMemoryRead` (header line 234) is
true iff the load-access collection is non-empty (spec section 4.3). -/
def isMemoryRead (i : Instruction) : Bool :=
  !i.loadAccess.isEmpty

/-- Modelled from the spec: `Instruction::isMemoryWrite` (header line 237) is
true iff the store-access collection is non-empty (spec section 4.3). -/
def isMemoryWrite (i : Instruction) : Bool :=
  !i.storeAccess.isEmpty

end Instruction

/-- Modelled from the spec: overlap of two memory-range descriptors, the
match relation spec section 4.3 uses for memory targets: the byte ranges
`[address, address + size)` intersect. -/
def MemoryAccess.overlaps (a b : MemoryAccess) : Bool :=
  decide (a.address < b.address + b.size ∧ b.address < a.address + a.size)

namespace Instruction

/-- Modelled from the spec: `Instruction::isWriteTo` (header line 240) is true
iff the target, as a memory range or register, matches an entry key of the
store-access or written-registers collection (spec section 4.3): by range
overlap for memory, by descriptor equality for registers (a register
descriptor is its numeric id, so id overlap is id equality).  An immediate is
never a write target. -/
def isWriteTo (i : Instruction) (target : OperandWrapper) : Bool :=
  match target with
  | .mem m => i.storeAccess.any (fun p => p.1.overlaps m)
  | .reg r => i.writtenRegisters.any (fun p => decide (p.1 = r))
  | .imm _ => false

/-- Modelled from the spec: `Instruction::isReadFrom` (header line 243) is
true iff the target matches an entry key of the load-access, read-registers or
read-immediates collection (spec section 4.3): by range overlap for memory, by
descriptor equality for registers and immediates. -/
def isReadFrom (i : Instruction) (target : OperandWrapper) : Bool :=
  match target with
  | .mem m => i.loadAccess.any (fun p => p.1.overlaps m)
  | .reg r => i.readRegisters.any (fun p => decide (p.1 = r))
  | .imm v => i.readImmediates.any (fun p => decide (p.1 = v))

/-- Modelled from the spec: the body of `Instruction::partialReset` is not in
the header; the header's own documentation (line 260: it resets partially the
instruction information, namely everything except the memory and register
states) is followed: every scalar and list field is reset to its default while
the access collections — the recorded memory and register (and immediate,
grouped with them as access state) entries — are preserved. -/
def partialReset (i : Instruction) : Instruction :=
  { i with
    tid := 0, address := 0, disassembly := "", opcode := [], size := 0,
    type := 0, pfx := 0, branch := false, controlFlow := false,
    conditionTaken := false, tainted := false, operands := [],
    symbolicExpressions := [] }

/-- Modelled from the spec: the body of `Instruction::reset` is not in the
header; its documentation (line 258: resets all instruction information) and
spec section 4.4 agree that it restores the full default state, i.e. it also
clears the five access collections on top of `partialReset`. -/
def reset (i : Instruction) : Instruction :=
  { i.partialReset with
    loadAccess := [], storeAccess := [],
    readRegisters := [], writtenRegisters := [], readImmediates := [] }

end Instruction

/-- A record populated by both the disassembly and the semantics phase, used
as the concrete input of witnesses and counterexamples: `mov eax, 4` at
address 4096 with one entry in each access collection and one tainted
expression. -/
def sampleDecoded : Instruction :=
  { Instruction.init with
    tid := 1, address := 4096, disassembly := "mov eax, 4",
    opcode := [184, 4, 0, 0, 0], size := 5, type := 8,
    loadAccess := [(⟨100, 4⟩, 7)], storeAccess := [(⟨200, 4⟩, 8)],
    readRegisters := [(⟨1⟩, 7)], writtenRegisters := [(⟨2⟩, 8)],
    readImmediates := [(⟨4⟩, 9)],
    branch := false, controlFlow := false, conditionTaken := true,
    tainted := true, operands := [OperandWrapper.reg ⟨1⟩],
    symbolicExpressions := [⟨0, true⟩] }

namespace Access

variable {D : Type} [DecidableEq D]

theorem fst_updEntry (d : D) (e : NodeRef) (p : D × NodeRef) :
    (updEntry d e p).1 = p.1 := by
  unfold updEntry
  split
  · next h => exact h.symm
  · rfl

theorem keyMatch_updEntry (d' d : D) (e : NodeRef) (p : D × NodeRef) :
    keyMatch d' (updEntry d e p) = keyMatch d' p := by
  unfold keyMatch
  rw [fst_updEntry]

theorem updEntry_updEntry (d : D) (e : NodeRef) (p : D × NodeRef) :
    updEntry d e (updEntry d e p) = updEntry d e p := by
  unfold updEntry
  split
  · simp
  · rfl

theorem updEntry_of_not_key (d : D) (e : NodeRef) (p : D × NodeRef)
    (h : p.1 ≠ d) : updEntry d e p = p := by
  unfold updEntry
  simp [h]

theorem not_key_of_containsKey_false {s : AccessSet D} {d : D}
    (h : containsKey s d = false) : ∀ p ∈ s, p.1 ≠ d := by
  intro p hp
  have := List.any_eq_false.mp h p hp
  simpa [keyMatch] using this

theorem containsKey_set (s : AccessSet D) (d : D) (e : NodeRef) :
    containsKey (Access.set s d e) d = true := by
  unfold Access.set
  split
  · next h =>
    unfold containsKey at h ⊢
    rw [List.any_map]
    have hf : (keyMatch d ∘ updEntry d e) = keyMatch d := by
      funext p
      simp [Function.comp, keyMatch_updEntry]
    rw [hf]
    exact h
  · unfold containsKey
    rw [List.any_append]
    simp [keyMatch]

theorem find?_map_updEntry {s : AccessSet D} {d : D} (e : NodeRef)
    (h : containsKey s d = true) :
    (s.map (updEntry d e)).find? (keyMatch d) = some (d, e) := by
  induction s with
  | nil => simp [containsKey] at h
  | cons p t ih =>
    by_cases hp : p.1 = d
    · have h1 : updEntry d e p = (d, e) := by
        unfold updEntry
        simp [hp]
      simp [h1, List.find?, keyMatch]
    · have h1 : updEntry d e p = p := updEntry_of_not_key d e p hp
      have h2 : keyMatch d p = false := by simp [keyMatch, hp]
      have h3 : containsKey t d = true := by
        unfold containsKey at h ⊢
        simpa [h2] using h
      simp [h1, List.find?, h2, ih h3]

theorem find?_append_single {s : AccessSet D} {d : D} (e : NodeRef)
    (h : containsKey s d = false) :
    (s ++ [(d, e)]).find? (keyMatch d) = some (d, e) := by
  induction s with
  | nil => simp [List.find?, keyMatch]
  | cons p t ih =>
    have h2 : keyMatch d p = false := by
      have := not_key_of_containsKey_false h p (by simp)
      simp [keyMatch, this]
    have h3 : containsKey t d = false := by
      unfold containsKey at h ⊢
      rw [List.any_cons] at h
      simpa [h2] using h
    simp only [List.cons_append, List.find?, h2]
    exact ih h3

theorem lookup_set_self (s : AccessSet D) (d : D) (e : NodeRef) :
    lookup (Access.set s d e) d = some e := by
  unfold lookup Access.set
  split
  · next h => rw [find?_map_updEntry e h]; rfl
  · next h =>
    rw [find?_append_single e (Bool.eq_false_iff.mpr h)]; rfl

theorem length_set_of_containsKey {s : AccessSet D} {d : D} (e : NodeRef)
    (h : containsKey s d = true) :
    (Access.set s d e).length = s.length := by
  unfold Access.set
  rw [if_pos h, List.length_map]

theorem set_set_length (s : AccessSet D) (d : D) (e1 e2 : NodeRef) :
    (Access.set (Access.set s d e1) d e2).length = (Access.set s d e1).length :=
  length_set_of_containsKey e2 (containsKey_set s d e1)

theorem keyCount_set_map {s : AccessSet D} {d d' : D} (e : NodeRef) :
    keyCount (s.map (updEntry d e)) d' = keyCount s d' := by
  unfold keyCount
  rw [List.countP_map]
  apply List.countP_congr
  intro p _
  simp [Function.comp, keyMatch_updEntry]

theorem keyCount_eq_zero_of_not_contains {s : AccessSet D} {d : D}
    (h : containsKey s d = false) : keyCount s d = 0 := by
  unfold keyCount
  rw [List.countP_eq_zero]
  intro p hp
  have := not_key_of_containsKey_false h p hp
  simp [keyMatch, this]

theorem keyUnique_set {s : AccessSet D} (d : D) (e : NodeRef)
    (h : KeyUnique s) : KeyUnique (Access.set s d e) := by
  intro d'
  unfold Access.set
  split
  · next hc => rw [keyCount_set_map]; exact h d'
  · next hc =>
    unfold keyCount
    rw [List.countP_append]
    by_cases hd : d' = d
    · subst hd
      have h0 : keyCount s d' = 0 :=
        keyCount_eq_zero_of_not_contains (Bool.eq_false_iff.mpr hc)
      unfold keyCount at h0
      have h1 : List.countP (keyMatch d') [(d', e)] = 1 := by
        rw [List.countP_cons, List.countP_nil]
        simp [keyMatch]
      rw [h0, h1]
    · have hne : d ≠ d' := fun hx => hd hx.symm
      have h1 : List.countP (keyMatch d') [(d, e)] = 0 := by
        rw [List.countP_cons, List.countP_nil]
        simp [keyMatch, hne]
      rw [h1]
      simpa using h d'

theorem keyUnique_remove {s : AccessSet D} (d : D)
    (h : KeyUnique s) : KeyUnique (Access.remove s d) := by
  intro d'
  have hsub : List.Sublist (Access.remove s d) s := List.filter_sublist s
  exact le_trans (hsub.countP_le (keyMatch d')) (h d')

theorem keyUnique_nil : KeyUnique ([] : AccessSet D) := by
  intro d
  simp [keyCount]

theorem keyUnique_runOps_aux (ops : List (Op D)) :
    ∀ s : AccessSet D, KeyUnique s → KeyUnique (ops.foldl applyOp s) := by
  induction ops with
  | nil => intro s hs; exact hs
  | cons op t ih =>
    intro s hs
    cases op with
    | upsert d e => exact ih _ (keyUnique_set d e hs)
    | erase d => exact ih _ (keyUnique_remove d hs)

theorem keyUnique_runOps (ops : List (Op D)) : KeyUnique (runOps ops) :=
  keyUnique_runOps_aux ops [] keyUnique_nil

theorem remove_of_not_containsKey {s : AccessSet D} {d : D}
    (h : containsKey s d = false) : Access.remove s d = s := by
  unfold Access.remove
  rw [List.filter_eq_self]
  intro p hp
  have := not_key_of_containsKey_false h p hp
  simp [keyMatch, this]

theorem map_updEntry_of_not_containsKey {s : AccessSet D} {d : D} (e : NodeRef)
    (h : containsKey s d = false) : s.map (updEntry d e) = s := by
  induction s with
  | nil => rfl
  | cons p t ih =>
    have hp : p.1 ≠ d := not_key_of_containsKey_false h p (by simp)
    have ht : containsKey t d = false := by
      unfold containsKey at h ⊢
      rw [List.any_cons] at h
      simpa using (Bool.or_eq_false_iff.mp h).2
    rw [List.map_cons, updEntry_of_not_key d e p hp, ih ht]

theorem set_of_containsKey {s : AccessSet D} {d : D} (e : NodeRef)
    (h : containsKey s d = true) :
    Access.set s d e = s.map (updEntry d e) := by
  unfold Access.set
  rw [if_pos h]

theorem set_of_not_containsKey {s : AccessSet D} {d : D} (e : NodeRef)
    (h : containsKey s d = false) :
    Access.set s d e = s ++ [(d, e)] := by
  unfold Access.set
  rw [if_neg]
  simp [h]

theorem set_idem (s : AccessSet D) (d : D) (e : NodeRef) :
    Access.set (Access.set s d e) d e = Access.set s d e := by
  rw [set_of_containsKey e (containsKey_set s d e)]
  by_cases h : containsKey s d = true
  · rw [set_of_containsKey e h, List.map_map]
    have hf : (updEntry d e ∘ updEntry d e) = updEntry d e := by
      funext p
      exact updEntry_updEntry d e p
    rw [hf]
  · have hnc : containsKey s d = false := Bool.eq_false_iff.mpr h
    rw [set_of_not_containsKey e hnc, List.map_append,
      map_updEntry_of_not_containsKey e hnc]
    have hu : updEntry d e (d, e) = (d, e) := by
      unfold updEntry
      simp
    rw [List.map_cons, hu, List.map_nil]

end Access

/-- C1: every access collection holds at most one entry per distinct
descriptor at any time (any state reachable from the empty collection by
set/remove operations satisfies the key-uniqueness invariant), and on each of
the five collections of the record, calling the set operation twice with the
same descriptor but two expression references leaves the collection size
unchanged while a lookup for the descriptor returns the second reference. -/
theorem access_set_unique_latest_wins :
    (∀ (D : Type) [DecidableEq D] (ops : List (Access.Op D)),
        Access.KeyUnique (Access.runOps ops)) ∧
    (∀ (i : Instruction) (m : MemoryAccess) (e1 e2 : NodeRef),
        ((i.setLoadAccess m e1).setLoadAccess m e2).loadAccess.length
            = (i.setLoadAccess m e1).loadAccess.length ∧
        Access.lookup ((i.setLoadAccess m e1).setLoadAccess m e2).loadAccess m
            = some e2) ∧
    (∀ (i : Instruction) (m : MemoryAccess) (e1 e2 : NodeRef),
        ((i.setStoreAccess m e1).setStoreAccess m e2).storeAccess.length
            = (i.setStoreAccess m e1).storeAccess.length ∧
        Access.lookup ((i.setStoreAccess m e1).setStoreAccess m e2).storeAccess m
            = some e2) ∧
    (∀ (i : Instruction) (r : Register) (e1 e2 : NodeRef),
        ((i.setReadRegister r e1).setReadRegister r e2).readRegisters.length
            = (i.setReadRegister r e1).readRegisters.length ∧
        Access.lookup ((i.setReadRegister r e1).setReadRegister r e2).readRegisters r
            = some e2) ∧
    (∀ (i : Instruction) (r : Register) (e1 e2 : NodeRef),
        ((i.setWrittenRegister r e1).setWrittenRegister r e2).writtenRegisters.length
            = (i.setWrittenRegister r e1).writtenRegisters.length ∧
        Access.lookup ((i.setWrittenRegister r e1).setWrittenRegister r e2).writtenRegisters r
            = some e2) ∧
    (∀ (i : Instruction) (v : Immediate) (e1 e2 : NodeRef),
        ((i.setReadImmediate v e1).setReadImmediate v e2).readImmediates.length
            = (i.setReadImmediate v e1).readImmediates.length ∧
        Access.lookup ((i.setReadImmediate v e1).setReadImmediate v e2).readImmediates v
            = some e2) := by
  refine ⟨?_, ?_, ?_, ?_, ?_, ?_⟩
  · intro D hD ops
    exact Access.keyUnique_runOps ops
  · intro i m e1 e2
    exact ⟨Access.set_set_length i.loadAccess m e1 e2,
      Access.lookup_set_self (Access.set i.loadAccess m e1) m e2⟩
  · intro i m e1 e2
    exact ⟨Access.set_set_length i.storeAccess m e1 e2,
      Access.lookup_set_self (Access.set i.storeAccess m e1) m e2⟩
  · intro i r e1 e2
    exact ⟨Access.set_set_length i.readRegisters r e1 e2,
      Access.lookup_set_self (Access.set i.readRegisters r e1) r e2⟩
  · intro i r e1 e2
    exact ⟨Access.set_set_length i.writtenRegisters r e1 e2,
      Access.lookup_set_self (Access.set i.writtenRegisters r e1) r e2⟩
  · intro i v e1 e2
    exact ⟨Access.set_set_length i.readImmediates v e1 e2,
      Access.lookup_set_self (Access.set i.readImmediates v e1) v e2⟩

/-- C2 counterexample: on a concrete record populated by both phases,
`partialReset` zeroes the address (the claim says the address is unchanged)
and leaves the load-access collection untouched and non-empty (the claim says
all access collections become empty).  The record follows the header's own
documentation of `partialReset` (line 260). -/
theorem partialReset_claim_counterexample :
    ¬ (sampleDecoded.partialReset.address = sampleDecoded.address ∧
        sampleDecoded.partialReset.loadAccess = []) ∧
    sampleDecoded.address = 4096 ∧
    sampleDecoded.partialReset.address = 0 ∧
    sampleDecoded.partialReset.loadAccess = sampleDecoded.loadAccess ∧
    sampleDecoded.loadAccess = [(⟨100, 4⟩, 7)] := by
  exact ⟨by decide, rfl, rfl, rfl, rfl⟩

/-- C2 (amended): after `partialReset` the five access collections hold the
same values as immediately before the call, while the thread id, address,
disassembly text, opcode bytes, size, type, prefix, branch flag, control-flow
flag, condition-taken flag, taint flag, operand list and symbolic-expression
list are reset to their defaults. -/
theorem partialReset_keeps_access_resets_rest (i : Instruction) :
    i.partialReset.loadAccess = i.loadAccess ∧
    i.partialReset.storeAccess = i.storeAccess ∧
    i.partialReset.readRegisters = i.readRegisters ∧
    i.partialReset.writtenRegisters = i.writtenRegisters ∧
    i.partialReset.readImmediates = i.readImmediates ∧
    i.partialReset.tid = 0 ∧
    i.partialReset.address = 0 ∧
    i.partialReset.disassembly = "" ∧
    i.partialReset.opcode = [] ∧
    i.partialReset.size = 0 ∧
    i.partialReset.type = 0 ∧
    i.partialReset.pfx = 0 ∧
    i.partialReset.branch = false ∧
    i.partialReset.controlFlow = false ∧
    i.partialReset.conditionTaken = false ∧
    i.partialReset.tainted = false ∧
    i.partialReset.operands = [] ∧
    i.partialReset.symbolicExpressions = [] := by
  exact ⟨rfl, rfl, rfl, rfl, rfl, rfl, rfl, rfl, rfl, rfl, rfl, rfl, rfl,
    rfl, rfl, rfl, rfl, rfl⟩

/-- C3: `setOpcode` with a payload longer than 32 bytes fails with
`BufferOverflow` and produces no modified record (the prior state is
untouched); with a payload of at most 32 bytes it succeeds and reading back
the opcode bytes and the size returns exactly the values passed in, all other
fields being unchanged. -/
theorem setOpcode_capacity (i : Instruction) (bytes : List Nat) :
    (bytes.length > 32 →
        i.setOpcode bytes = Except.error TritonError.BufferOverflow) ∧
    (bytes.length ≤ 32 →
        ∃ j : Instruction, i.setOpcode bytes = Except.ok j ∧
          j.opcode = bytes ∧ j.size = bytes.length ∧
          j = { i with opcode := bytes, size := bytes.length }) := by
  constructor
  · intro h
    unfold Instruction.setOpcode
    rw [if_pos h]
  · intro h
    refine ⟨{ i with opcode := bytes, size := bytes.length }, ?_, rfl, rfl, rfl⟩
    unfold Instruction.setOpcode
    rw [if_neg (Nat.not_lt.mpr h)]

/-- Witness for C3: a 33-byte payload overflows a fresh record, and a
one-byte payload is stored with size 1. -/
theorem setOpcode_capacity_witness :
    Instruction.init.setOpcode (List.replicate 33 0)
        = Except.error TritonError.BufferOverflow ∧
    ∃ j : Instruction, Instruction.init.setOpcode [144] = Except.ok j ∧
      j.opcode = [144] ∧ j.size = [144].length ∧
      j = { Instruction.init with opcode := [144], size := [144].length } :=
  ⟨(setOpcode_capacity Instruction.init (List.replicate 33 0)).1 (by decide),
   (setOpcode_capacity Instruction.init [144]).2 (by decide)⟩

/-- C4: on each of the five collections, removing a descriptor that is not
present leaves the record completely unchanged (the operation is total: no
error value exists for it). -/
theorem remove_absent_noop (i : Instruction) (m : MemoryAccess)
    (r : Register) (v : Immediate) :
    (Access.containsKey i.loadAccess m = false → i.removeLoadAccess m = i) ∧
    (Access.containsKey i.storeAccess m = false → i.removeStoreAccess m = i) ∧
    (Access.containsKey i.readRegisters r = false → i.removeReadRegister r = i) ∧
    (Access.containsKey i.writtenRegisters r = false → i.removeWrittenRegister r = i) ∧
    (Access.containsKey i.readImmediates v = false → i.removeReadImmediate v = i) := by
  refine ⟨?_, ?_, ?_, ?_, ?_⟩
  · intro h
    unfold Instruction.removeLoadAccess
    rw [Access.remove_of_not_containsKey h]
  · intro h
    unfold Instruction.removeStoreAccess
    rw [Access.remove_of_not_containsKey h]
  · intro h
    unfold Instruction.removeReadRegister
    rw [Access.remove_of_not_containsKey h]
  · intro h
    unfold Instruction.removeWrittenRegister
    rw [Access.remove_of_not_containsKey h]
  · intro h
    unfold Instruction.removeReadImmediate
    rw [Access.remove_of_not_containsKey h]

/-- Witness for C4: removing never-inserted descriptors from the populated
sample record changes nothing, on every collection. -/
theorem remove_absent_noop_witness :
    sampleDecoded.removeLoadAccess ⟨300, 4⟩ = sampleDecoded ∧
    sampleDecoded.removeStoreAccess ⟨300, 4⟩ = sampleDecoded ∧
    sampleDecoded.removeReadRegister ⟨9⟩ = sampleDecoded ∧
    sampleDecoded.removeWrittenRegister ⟨9⟩ = sampleDecoded ∧
    sampleDecoded.removeReadImmediate ⟨9⟩ = sampleDecoded :=
  ⟨(remove_absent_noop sampleDecoded ⟨300, 4⟩ ⟨9⟩ ⟨9⟩).1 (by decide),
   (remove_absent_noop sampleDecoded ⟨300, 4⟩ ⟨9⟩ ⟨9⟩).2.1 (by decide),
   (remove_absent_noop sampleDecoded ⟨300, 4⟩ ⟨9⟩ ⟨9⟩).2.2.1 (by decide),
   (remove_absent_noop sampleDecoded ⟨300, 4⟩ ⟨9⟩ ⟨9⟩).2.2.2.1 (by decide),
   (remove_absent_noop sampleDecoded ⟨300, 4⟩ ⟨9⟩ ⟨9⟩).2.2.2.2 (by decide)⟩

/-- C5: for every record state, `isMemoryRead` is true exactly when the
load-access collection is non-empty and `isMemoryWrite` is true exactly when
the store-access collection is non-empty; this holds after any sequence of
operations because both predicates are functions of the current state only. -/
theorem isMemoryRead_isMemoryWrite_iff (i : Instruction) :
    (i.isMemoryRead = true ↔ i.loadAccess ≠ []) ∧
    (i.isMemoryWrite = true ↔ i.storeAccess ≠ []) := by
  constructor
  · unfold Instruction.isMemoryRead
    simp
  · unfold Instruction.isMemoryWrite
    simp

/-- C6: after the no-argument `setTaint`, `isTainted` is the logical OR of the
per-expression taint flags: it is true exactly when some listed expression is
tainted, hence false on an empty expression list. -/
theorem setTaint_or_of_expression_taint (i : Instruction) :
    (i.setTaint.isTainted = true ↔
        ∃ e ∈ i.symbolicExpressions, e.isTainted = true) ∧
    (i.symbolicExpressions = [] → i.setTaint.isTainted = false) := by
  constructor
  · unfold Instruction.setTaint Instruction.isTainted
    simp [List.any_eq_true]
  · intro h
    unfold Instruction.setTaint Instruction.isTainted
    simp [h]

/-- Witness for C6: a fresh record has no expressions, so the recomputed
aggregate flag is false; the sample record lists a tainted expression, so it
is true. -/
theorem setTaint_or_of_expression_taint_witness :
    Instruction.init.setTaint.isTainted = false ∧
    sampleDecoded.setTaint.isTainted = true :=
  ⟨(setTaint_or_of_expression_taint Instruction.init).2 rfl,
   (setTaint_or_of_expression_taint sampleDecoded).1.mpr
     ⟨⟨0, true⟩, by decide, rfl⟩⟩

/-- C7: `getNextAddress` returns `address + size` in 64-bit unsigned
arithmetic: the sum reduced modulo `2 ^ 64`, which is the plain sum whenever
it does not wrap. -/
theorem getNextAddress_eq_address_add_size (i : Instruction) :
    i.getNextAddress = (i.address + i.size) % 2 ^ 64 ∧
    (i.address + i.size < 2 ^ 64 → i.getNextAddress = i.address + i.size) := by
  refine ⟨rfl, fun h => ?_⟩
  unfold Instruction.getNextAddress
  exact Nat.mod_eq_of_lt h

/-- Witness for C7: the sample record at address 4096 with size 5 has next
address 4101. -/
theorem getNextAddress_eq_address_add_size_witness :
    sampleDecoded.getNextAddress = 4096 + 5 :=
  (getNextAddress_eq_address_add_size sampleDecoded).2 (by decide)

/-- C8: `reset` turns any record, whatever its prior state, into a record
equal (field by field) to a freshly default-constructed one. -/
theorem reset_eq_default_constructed (i : Instruction) :
    i.reset = Instruction.init :=
  rfl

/-- C9: `isWriteTo` holds exactly when the target matches an entry key of the
store-access collection (memory targets, by range overlap) or of the
written-registers collection (register targets); `isReadFrom` holds exactly
when the target matches an entry key of the load-access, read-registers or
read-immediates collection. -/
theorem isWriteTo_isReadFrom_iff (i : Instruction) (m : MemoryAccess)
    (r : Register) (v : Immediate) :
    (i.isWriteTo (OperandWrapper.mem m) = true ↔
        ∃ p ∈ i.storeAccess, p.1.overlaps m = true) ∧
    (i.isWriteTo (OperandWrapper.reg r) = true ↔
        ∃ p ∈ i.writtenRegisters, p.1 = r) ∧
    (i.isReadFrom (OperandWrapper.mem m) = true ↔
        ∃ p ∈ i.loadAccess, p.1.overlaps m = true) ∧
    (i.isReadFrom (OperandWrapper.reg r) = true ↔
        ∃ p ∈ i.readRegisters, p.1 = r) ∧
    (i.isReadFrom (OperandWrapper.imm v) = true ↔
        ∃ p ∈ i.readImmediates, p.1 = v) := by
  refine ⟨?_, ?_, ?_, ?_, ?_⟩
  · unfold Instruction.isWriteTo
    simp [List.any_eq_true]
  · unfold Instruction.isWriteTo
    simp [List.any_eq_true]
  · unfold Instruction.isReadFrom
    simp [List.any_eq_true]
  · unfold Instruction.isReadFrom
    simp [List.any_eq_true]
  · unfold Instruction.isReadFrom
    simp [List.any_eq_true]

/-- C10: on each of the five collections, setting the same descriptor with
the same expression reference twice in a row leaves the collection exactly
equal to its state after the first call. -/
theorem access_set_idempotent (i : Instruction) (m : MemoryAccess)
    (r : Register) (v : Immediate) (e : NodeRef) :
    ((i.setLoadAccess m e).setLoadAccess m e).loadAccess
        = (i.setLoadAccess m e).loadAccess ∧
    ((i.setStoreAccess m e).setStoreAccess m e).storeAccess
        = (i.setStoreAccess m e).storeAccess ∧
    ((i.setReadRegister r e).setReadRegister r e).readRegisters
        = (i.setReadRegister r e).readRegisters ∧
    ((i.setWrittenRegister r e).setWrittenRegister r e).writtenRegisters
        = (i.setWrittenRegister r e).writtenRegisters ∧
    ((i.setReadImmediate v e).setReadImmediate v e).readImmediates
        = (i.setReadImmediate v e).readImmediates := by
  exact ⟨Access.set_idem i.loadAccess m e, Access.set_idem i.storeAccess m e,
    Access.set_idem i.readRegisters r e, Access.set_idem i.writtenRegisters r e,
    Access.set_idem i.readImmediates v e⟩

end Triton
